import Mathlib

/-!
Verification of the robot access-resolution engine.

This file gives a shallow embedding of the authorization engine of the
dexmate_robot backend: the relational entity state (users, groups,
group_memberships, robots, robot_permissions, robot_settings from
db/schema.sql), the access resolver and visibility enumerator
(services/robot.service: getUserRobotPermission, hasAdminPermission,
getAccessibleRobots), and the mutating controller operations
(controllers/group.controller: createGroup, upsertMember, removeMember,
createGroupRobot; controllers/robot.controller: assignRobot,
grantPermission, getRobotSettings, updateRobotSettings).

Each SQL query over a table becomes a pure lookup over the corresponding
list of rows; row order in a list mirrors insertion order, and queries that
take rows[0] of a unique-key lookup become List.find?. A handler that calls
next(createError(msg, status)) is embedded as Except.error of an ApiErr
carrying that message and status; a handler that commits writes returns the
post-state. Timestamps, response formatting and the HTTP/auth layers are
out of scope, as in the specification.
-/

namespace RobotApp

/-- PermissionType of a robot_permissions row: column values USAGE and ADMIN. -/
inductive PermissionType
  | usage
  | admin
deriving DecidableEq, Repr

/-- GroupRole of a group_memberships row: column values ADMIN and MEMBER. -/
inductive GroupRole
  | admin
  | member
deriving DecidableEq, Repr

/-- Row of the groups table: id, name, owner_id. -/
structure Group where
  id : Nat
  name : String
  ownerId : Nat
deriving DecidableEq, Repr

/-- Row of the group_memberships table: group_id, user_id, role. -/
structure GroupMembership where
  groupId : Nat
  userId : Nat
  role : GroupRole
deriving DecidableEq, Repr

/-- Row of the robots table. The serial number is the primary key; the
owner is owner_user_id or owner_group_id (XOR checked by the schema, not
re-imposed here: theorems state any hypotheses they need explicitly). -/
structure Robot where
  serialNumber : String
  name : String
  model : Option String
  ownerUserId : Option Nat
  ownerGroupId : Option Nat
  assignedUserId : Option Nat
deriving DecidableEq, Repr

/-- Row of the robot_permissions table: robot_serial_number, user_id,
permission_type, granted_by_id. -/
structure RobotPermission where
  robotSerialNumber : String
  userId : Nat
  permissionType : PermissionType
  grantedById : Option Nat
deriving DecidableEq, Repr

/-- Settings blobs are opaque jsonb values; we model them as strings. -/
abbrev Jsonb := String

/-- The empty jsonb object inserted by the settings read path. -/
def emptyJsonb : Jsonb := "\x7b\x7d"

/-- Row of the robot_settings table: robot_serial_number, user_id, settings. -/
structure RobotSetting where
  robotSerialNumber : String
  userId : Nat
  settings : Jsonb
deriving DecidableEq, Repr

/-- The relational state the engine queries and updates. Users only appear
through their ids, since no operation modeled here reads other user columns. -/
structure DbState where
  groups : List Group
  groupMemberships : List GroupMembership
  robots : List Robot
  robotPermissions : List RobotPermission
  robotSettings : List RobotSetting
deriving DecidableEq, Repr

/-- Error value of createError(message, status) in middleware/errorHandler. -/
structure ApiErr where
  message : String
  status : Nat
deriving DecidableEq, Repr

def robotNotFoundErr : ApiErr := ⟨"Robot not found", 404⟩
def groupNotFoundErr : ApiErr := ⟨"Group not found", 404⟩
def adminRequiredErr : ApiErr := ⟨"Admin level permission required", 403⟩
def groupAdminRequiredErr : ApiErr := ⟨"Group admin privileges required", 403⟩
def memberNotFoundErr : ApiErr := ⟨"Member not found", 404⟩
def ownerRemoveErr : ApiErr := ⟨"Cannot remove the group owner", 400⟩
def onlyGroupOwnedErr : ApiErr := ⟨"Only group-owned robots can be assigned to members", 400⟩
def mustBelongErr : ApiErr := ⟨"User must belong to the owning group", 400⟩
def ownersAlreadyErr : ApiErr := ⟨"Owners already have admin access", 400⟩
def permissionDeniedErr : ApiErr := ⟨"Permission denied", 403⟩
def onlyGroupAdminsRegisterErr : ApiErr := ⟨"Only group admins can register robots for the group", 403⟩
def serialConflictErr : ApiErr := ⟨"Robot with this serial number already exists", 400⟩

/-- SELECT * FROM groups WHERE id = $1, taking rows[0]. -/
def groupById (st : DbState) (gid : Nat) : Option Group :=
  st.groups.find? (fun g => g.id == gid)

/-- SELECT * FROM group_memberships WHERE group_id = $1 AND user_id = $2,
taking rows[0] (the pair is UNIQUE in the schema). -/
def membershipOf (st : DbState) (gid uid : Nat) : Option GroupMembership :=
  st.groupMemberships.find? (fun m => m.groupId == gid && m.userId == uid)

/-- SELECT * FROM robots WHERE serial_number = $1, taking rows[0]
(serial_number is the primary key). -/
def robotBySerial (st : DbState) (s : String) : Option Robot :=
  st.robots.find? (fun r => r.serialNumber == s)

/-- SELECT * FROM robot_permissions WHERE robot_serial_number = $1 AND
user_id = $2, taking rows[0] (the pair is UNIQUE in the schema). -/
def permissionOf (st : DbState) (s : String) (uid : Nat) : Option RobotPermission :=
  st.robotPermissions.find? (fun p => p.robotSerialNumber == s && p.userId == uid)

/-- SELECT * FROM robot_settings WHERE robot_serial_number = $1 AND
user_id = $2, taking rows[0] (the pair is UNIQUE in the schema). -/
def settingOf (st : DbState) (s : String) (uid : Nat) : Option RobotSetting :=
  st.robotSettings.find? (fun row => row.robotSerialNumber == s && row.userId == uid)

/-- Group branch shared by getUserRobotPermission and hasAdminPermission in
robot.service: when the robot has an owning group, the user is the owner of
that group, or holds an ADMIN-role membership in it. When the group row is
absent the owner test is skipped and the membership test still runs, exactly
as the two early-return ifs in the source. -/
def groupAdminCheck (st : DbState) (ownerGroupId : Option Nat) (userId : Nat) : Bool :=
  match ownerGroupId with
  | none => false
  | some gid =>
    (match groupById st gid with
     | some g => g.ownerId == userId
     | none => false)
    ||
    (match membershipOf st gid userId with
     | some m => m.role == GroupRole.admin
     | none => false)

/-- getUserRobotPermission from services/robot.service: looks the robot up
by serial number (returning null when absent), then tests the sources in
order — direct owner, owning-group owner or admin member, assigned user,
explicit robot_permissions row — returning at the first hit. -/
def getUserRobotPermission (st : DbState) (userId : Nat) (serial : String) :
    Option PermissionType :=
  match robotBySerial st serial with
  | none => none
  | some robot =>
    if robot.ownerUserId = some userId then
      some PermissionType.admin
    else if groupAdminCheck st robot.ownerGroupId userId then
      some PermissionType.admin
    else if robot.assignedUserId = some userId then
      some PermissionType.usage
    else
      match permissionOf st serial userId with
      | some p => some p.permissionType
      | none => none

/-- hasAdminPermission from services/robot.service: the authority check used
by the mutating robot endpoints. It receives the robot columns the caller
already loaded, and tests direct owner, owning-group owner or admin member,
then an explicit ADMIN permission row. It never consults assigned_user_id. -/
def hasAdminPermission (st : DbState) (userId : Nat) (serialNumber : String)
    (ownerUserId ownerGroupId : Option Nat) : Bool :=
  if ownerUserId = some userId then
    true
  else if groupAdminCheck st ownerGroupId userId then
    true
  else
    match permissionOf st serialNumber userId with
    | some p => p.permissionType == PermissionType.admin
    | none => false

/-- getAccessibleRobots from services/robot.service: first collects the ids
of the groups the user belongs to and the serials the user holds permission
rows for, then selects the robots satisfying the OR of four conditions —
owner_group_id = ANY(groupIds), serial_number = ANY(permissionRobotIds),
owner_user_id = userId, assigned_user_id = userId. When a collected list is
empty the source omits its condition, which coincides with matching against
an empty list. The ORDER BY clause is irrelevant to the set-valued claims
and is not modeled. -/
def getAccessibleRobots (st : DbState) (userId : Nat) : List Robot :=
  st.robots.filter (fun r =>
    (match r.ownerGroupId with
     | some g =>
       ((st.groupMemberships.filter (fun m => m.userId == userId)).map
         (fun m => m.groupId)).any (fun g2 => g2 == g)
     | none => false)
    || ((st.robotPermissions.filter (fun p => p.userId == userId)).map
         (fun p => p.robotSerialNumber)).any (fun s => s == r.serialNumber)
    || r.ownerUserId == some userId
    || r.assignedUserId == some userId)

/-- Group-admin authority check inlined in upsertMember, removeMember and
createGroupRobot of group.controller: the actor is the owner recorded on the
group row, or holds an ADMIN-role membership. -/
def groupActorIsAdmin (st : DbState) (group : Group) (groupId actorId : Nat) : Bool :=
  group.ownerId == actorId
  || (match membershipOf st groupId actorId with
      | some m => m.role == GroupRole.admin
      | none => false)

/-- INSERT INTO group_memberships ... ON CONFLICT (group_id, user_id) DO
UPDATE SET role = $3: replaces the role of the existing row for the key if
present, otherwise appends a new row. -/
def upsertMembershipRow (l : List GroupMembership) (gid uid : Nat) (role : GroupRole) :
    List GroupMembership :=
  if l.any (fun m => m.groupId == gid && m.userId == uid) then
    l.map (fun m =>
      if m.groupId == gid && m.userId == uid then { m with role := role } else m)
  else
    l ++ [⟨gid, uid, role⟩]

/-- INSERT INTO robot_permissions ... ON CONFLICT (robot_serial_number,
user_id) DO UPDATE SET permission_type = $3, granted_by_id = $4. -/
def upsertPermissionRow (l : List RobotPermission) (s : String) (uid : Nat)
    (ptype : PermissionType) (grantedById : Option Nat) : List RobotPermission :=
  if l.any (fun p => p.robotSerialNumber == s && p.userId == uid) then
    l.map (fun p =>
      if p.robotSerialNumber == s && p.userId == uid then
        { p with permissionType := ptype, grantedById := grantedById }
      else p)
  else
    l ++ [⟨s, uid, ptype, grantedById⟩]

/-- INSERT INTO robot_settings ... ON CONFLICT (robot_serial_number,
user_id) DO UPDATE SET settings = $3. -/
def upsertSettingRow (l : List RobotSetting) (s : String) (uid : Nat) (blob : Jsonb) :
    List RobotSetting :=
  if l.any (fun row => row.robotSerialNumber == s && row.userId == uid) then
    l.map (fun row =>
      if row.robotSerialNumber == s && row.userId == uid then
        { row with settings := blob }
      else row)
  else
    l ++ [⟨s, uid, blob⟩]

/-- Fresh SERIAL id for a new groups row: one more than the largest id in
use, mirroring a fresh value of the id sequence. -/
def freshGroupId (st : DbState) : Nat :=
  (st.groups.map Group.id).foldr max 0 + 1

/-- createGroup from group.controller. The handler issues two separate
query() calls with no surrounding transaction: INSERT INTO groups, then
INSERT INTO group_memberships for the owner with role ADMIN. Each call
auto-commits on its own. The membershipInsertOk flag injects a storage
failure of the second INSERT (the code catches it via try/catch and calls
next(error), with nothing rolled back); the returned Bool reports whether
the handler succeeded, and the returned state is what the database holds
afterwards in either case. -/
def createGroup (st : DbState) (actorId : Nat) (name : String)
    (membershipInsertOk : Bool) : DbState × Bool :=
  let gid := freshGroupId st
  let st1 := { st with groups := st.groups ++ [⟨gid, name, actorId⟩] }
  if membershipInsertOk then
    ({ st1 with groupMemberships := st1.groupMemberships ++ [⟨gid, actorId, GroupRole.admin⟩] },
     true)
  else
    (st1, false)

/-- createGroup on the path where both INSERTs succeed. -/
def createGroupOk (st : DbState) (actorId : Nat) (name : String) : DbState :=
  (createGroup st actorId name true).1

/-- upsertMember from group.controller: 404 when the group is absent, 403
when the actor is neither the group owner nor an ADMIN member, then an
idempotent upsert of the (group, user) membership row with the given role.
There is no guard on the target being the group owner. -/
def upsertMember (st : DbState) (actorId groupId targetId : Nat) (role : GroupRole) :
    Except ApiErr DbState :=
  match groupById st groupId with
  | none => .error groupNotFoundErr
  | some group =>
    if !(groupActorIsAdmin st group groupId actorId) then
      .error groupAdminRequiredErr
    else
      .ok { st with groupMemberships := upsertMembershipRow st.groupMemberships groupId targetId role }

/-- removeMember from group.controller: 404 when the group is absent, 403
when the actor lacks group-admin authority, 404 when the target has no
membership row, 400 when the target is the group owner, otherwise DELETE of
the membership row. Nothing else is touched: in particular robots assigned
to the removed member keep their assigned_user_id. -/
def removeMember (st : DbState) (actorId groupId targetId : Nat) :
    Except ApiErr DbState :=
  match groupById st groupId with
  | none => .error groupNotFoundErr
  | some group =>
    if !(groupActorIsAdmin st group groupId actorId) then
      .error groupAdminRequiredErr
    else if (membershipOf st groupId targetId).isNone then
      .error memberNotFoundErr
    else if group.ownerId == targetId then
      .error ownerRemoveErr
    else
      .ok { st with groupMemberships :=
        st.groupMemberships.filter (fun m => !(m.groupId == groupId && m.userId == targetId)) }

/-- createGroupRobot from group.controller: 404 when the group is absent,
403 unless the actor is the group owner or an ADMIN member, then INSERT of
a group-owned robot; a duplicate serial number raises the unique-violation
signal which the handler maps to a 400 Conflict. -/
def createGroupRobot (st : DbState) (actorId groupId : Nat)
    (serial name : String) (model : Option String) : Except ApiErr DbState :=
  match groupById st groupId with
  | none => .error groupNotFoundErr
  | some group =>
    let isOwner := group.ownerId == actorId
    let isAdmin := match membershipOf st groupId actorId with
      | some m => m.role == GroupRole.admin
      | none => false
    if !isOwner && !isAdmin then
      .error onlyGroupAdminsRegisterErr
    else if st.robots.any (fun r => r.serialNumber == serial) then
      .error serialConflictErr
    else
      .ok { st with robots := st.robots ++ [⟨serial, name, model, none, some groupId, none⟩] }

/-- assignRobot from robot.controller: 404 when the robot is absent, 400
when the robot is not group-owned, 403 without hasAdminPermission, then the
membership probe SELECT ... WHERE group_id = $1 AND user_id = $2 with the
request body user_id. A null user_id never matches a row (SQL null equality),
so the probe also fails for null and the handler returns the 400 error
instead of clearing the assignment. On success UPDATE robots SET
assigned_user_id = $1 for the serial. -/
def assignRobot (st : DbState) (actorId : Nat) (serial : String)
    (targetUserId : Option Nat) : Except ApiErr DbState :=
  match robotBySerial st serial with
  | none => .error robotNotFoundErr
  | some robot =>
    match robot.ownerGroupId with
    | none => .error onlyGroupOwnedErr
    | some gid =>
      if !(hasAdminPermission st actorId serial robot.ownerUserId robot.ownerGroupId) then
        .error adminRequiredErr
      else if !(st.groupMemberships.any (fun m => m.groupId == gid && some m.userId == targetUserId)) then
        .error mustBelongErr
      else
        .ok { st with robots := st.robots.map (fun r =>
          if r.serialNumber == serial then { r with assignedUserId := targetUserId } else r) }

/-- grantPermission from robot.controller: 404 when the robot is absent,
403 without hasAdminPermission, 400 when the target is the direct owner
(owner_user_id = user_id; vacuous for group-owned robots whose
owner_user_id is null), then the ON CONFLICT upsert of the permission row
with the new permission_type and granted_by_id. -/
def grantPermission (st : DbState) (actorId : Nat) (serial : String)
    (targetUserId : Nat) (ptype : PermissionType) : Except ApiErr DbState :=
  match robotBySerial st serial with
  | none => .error robotNotFoundErr
  | some robot =>
    if !(hasAdminPermission st actorId serial robot.ownerUserId robot.ownerGroupId) then
      .error adminRequiredErr
    else if robot.ownerUserId == some targetUserId then
      .error ownersAlreadyErr
    else
      .ok { st with robotPermissions :=
        upsertPermissionRow st.robotPermissions serial targetUserId ptype (some actorId) }

/-- getRobotSettings from robot.controller: 403 unless the serial appears in
getAccessibleRobots for the caller, then the read-side upsert INSERT ... ON
CONFLICT DO UPDATE SET robot_serial_number = robot_serial_number RETURNING
settings: when a row exists it is returned unchanged, otherwise an empty
jsonb row is inserted and returned. -/
def getRobotSettings (st : DbState) (userId : Nat) (serial : String) :
    Except ApiErr (DbState × Jsonb) :=
  if !((getAccessibleRobots st userId).any (fun r => r.serialNumber == serial)) then
    .error permissionDeniedErr
  else
    match settingOf st serial userId with
    | some row => .ok (st, row.settings)
    | none =>
      .ok ({ st with robotSettings := st.robotSettings ++ [⟨serial, userId, emptyJsonb⟩] },
           emptyJsonb)

/-- updateRobotSettings from robot.controller: 403 unless the serial appears
in getAccessibleRobots for the caller, then INSERT ... ON CONFLICT DO UPDATE
SET settings = $3 — a full replacement of the stored blob. -/
def updateRobotSettings (st : DbState) (userId : Nat) (serial : String)
    (blob : Jsonb) : Except ApiErr DbState :=
  if !((getAccessibleRobots st userId).any (fun r => r.serialNumber == serial)) then
    .error permissionDeniedErr
  else
    .ok { st with robotSettings := upsertSettingRow st.robotSettings serial userId blob }

/-- Invariant from the data model: every group has a membership row for its
owner. It is established by createGroup and never undone by removeMember,
which refuses to delete the owner row. -/
def ownerMembershipInvB (st : DbState) : Bool :=
  st.groups.all (fun g =>
    st.groupMemberships.any (fun m => m.groupId == g.id && m.userId == g.ownerId))

/-- Invariant claimed by the spec for assigned_user: set only on group-owned
robots and only to a current member of the owning group. -/
def assignedMemberInvB (st : DbState) : Bool :=
  st.robots.all (fun r =>
    match r.assignedUserId with
    | none => true
    | some u =>
      match r.ownerGroupId with
      | none => false
      | some gid => st.groupMemberships.any (fun m => m.groupId == gid && m.userId == u))

/-- Uniqueness of the (robot_serial_number, user_id) key of
robot_permissions, as enforced by the schema's UNIQUE constraint. -/
def permKeysNodup (st : DbState) : Prop :=
  (st.robotPermissions.map (fun p => (p.robotSerialNumber, p.userId))).Nodup

/-- The empty database. -/
def emptyDb : DbState := ⟨[], [], [], [], []⟩

/-- State with group 1 owned by user 1, member user 2, a group-owned robot
R1 assigned to user 2, and an explicit ADMIN permission row for user 2 on
R1. Reachable via createGroup, upsertMember, createGroupRobot, assignRobot
and grantPermission. -/
def stAssignedGrantee : DbState :=
  { groups := [⟨1, "G", 1⟩]
    groupMemberships := [⟨1, 1, GroupRole.admin⟩, ⟨1, 2, GroupRole.member⟩]
    robots := [⟨"R1", "Bot", none, none, some 1, some 2⟩]
    robotPermissions := [⟨"R1", 2, PermissionType.admin, some 1⟩]
    robotSettings := [] }

/-- State with group 1 owned by user 1, plain MEMBER user 2, and an
unassigned group-owned robot R1 with no permission rows. -/
def stPlainMember : DbState :=
  { groups := [⟨1, "G", 1⟩]
    groupMemberships := [⟨1, 1, GroupRole.admin⟩, ⟨1, 2, GroupRole.member⟩]
    robots := [⟨"R1", "Bot", none, none, some 1, none⟩]
    robotPermissions := []
    robotSettings := [] }

/-- stPlainMember after assignRobot by user 1 hands R1 to user 2. -/
def stPlainMemberAssigned : DbState :=
  { stPlainMember with robots := [⟨"R1", "Bot", none, none, some 1, some 2⟩] }

/-- State with a group-owned robot R1 (group 1, owner 1, member 2, assigned
to 2) and a user-owned robot R2 (owner 1). User 3 exists but is no member. -/
def stTwoRobots : DbState :=
  { groups := [⟨1, "G", 1⟩]
    groupMemberships := [⟨1, 1, GroupRole.admin⟩, ⟨1, 2, GroupRole.member⟩]
    robots := [⟨"R1", "Bot", none, none, some 1, some 2⟩,
               ⟨"R2", "Bot2", none, some 1, none, none⟩]
    robotPermissions := []
    robotSettings := [] }

/-- State right after user 1 creates group 1: the owner holds the sole
membership row with role ADMIN. -/
def stOwnerGroup : DbState :=
  { groups := [⟨1, "G", 1⟩]
    groupMemberships := [⟨1, 1, GroupRole.admin⟩]
    robots := []
    robotPermissions := []
    robotSettings := [] }

/-- State with a single user-owned robot R1 (owner user 1). -/
def stUserOwned : DbState :=
  { groups := []
    groupMemberships := []
    robots := [⟨"R1", "Bot", none, some 1, none, none⟩]
    robotPermissions := []
    robotSettings := [] }

/-- Operation chain reaching stPlainMemberAssigned from the empty database:
user 1 creates a group, adds user 2 as MEMBER, registers robot R1 for the
group and assigns it to user 2. -/
def removeAssignedMemberChain : Except ApiErr DbState :=
  (upsertMember (createGroupOk emptyDb 1 "G") 1 1 2 GroupRole.member).bind fun st2 =>
  (createGroupRobot st2 1 1 "R1" "Bot" none).bind fun st3 =>
  assignRobot st3 1 "R1" (some 2)

/-! Generic list lemmas about find? over key-unique rows and over the
insert-or-update row shape shared by the ON CONFLICT upserts. -/

/-- find? by key returns the unique row holding that key. -/
theorem find?_key_unique {α κ : Type} [BEq κ] [LawfulBEq κ] (key : α → κ)
    (l : List α) (a : α) (ha : a ∈ l) (hnd : (l.map key).Nodup) :
    l.find? (fun x => key x == key a) = some a := by
  induction l with
  | nil => cases ha
  | cons b t ih =>
    rw [List.map_cons, List.nodup_cons] at hnd
    by_cases hb : (key b == key a) = true
    · rw [List.find?_cons_of_pos (p := fun x => key x == key a) t hb]
      rcases List.mem_cons.mp ha with rfl | hat
      · rfl
      · exact absurd (eq_of_beq hb ▸ List.mem_map.mpr ⟨a, hat, rfl⟩) hnd.1
    · rw [List.find?_cons_of_neg (p := fun x => key x == key a) t hb]
      rcases List.mem_cons.mp ha with rfl | hat
      · exact absurd (by simp) hb
      · exact ih hat hnd.2

/-- find? by a two-component key returns the unique row holding that key. -/
theorem find?_pairkey_unique {α κ₁ κ₂ : Type} [BEq κ₁] [LawfulBEq κ₁]
    [BEq κ₂] [LawfulBEq κ₂] (k₁ : α → κ₁) (k₂ : α → κ₂)
    (l : List α) (a : α) (ha : a ∈ l)
    (hnd : (l.map (fun x => (k₁ x, k₂ x))).Nodup) :
    l.find? (fun x => k₁ x == k₁ a && k₂ x == k₂ a) = some a := by
  induction l with
  | nil => cases ha
  | cons b t ih =>
    rw [List.map_cons, List.nodup_cons] at hnd
    by_cases hb : (k₁ b == k₁ a && k₂ b == k₂ a) = true
    · rw [List.find?_cons_of_pos (p := fun x => k₁ x == k₁ a && k₂ x == k₂ a) t hb]
      rcases List.mem_cons.mp ha with rfl | hat
      · rfl
      · rw [Bool.and_eq_true] at hb
        have hkey : (k₁ b, k₂ b) = (k₁ a, k₂ a) := by
          rw [eq_of_beq hb.1, eq_of_beq hb.2]
        exact absurd (hkey ▸ List.mem_map.mpr ⟨a, hat, rfl⟩) hnd.1
    · rw [List.find?_cons_of_neg (p := fun x => k₁ x == k₁ a && k₂ x == k₂ a) t hb]
      rcases List.mem_cons.mp ha with rfl | hat
      · exact absurd (by simp) hb
      · exact ih hat hnd.2

/-- find? over an appended singleton when no earlier row matches. -/
theorem find?_append_of_all_neg {α : Type} (p : α → Bool) (l : List α) (v : α)
    (h : ∀ x ∈ l, ¬ p x = true) (hv : p v = true) :
    (l ++ [v]).find? p = some v := by
  induction l with
  | nil => simpa using List.find?_cons_of_pos [] hv
  | cons b t ih =>
    rw [List.cons_append, List.find?_cons_of_neg _ (h b (List.mem_cons_self b t))]
    exact ih fun x hx => h x (List.mem_cons_of_mem b hx)

/-- find? over a conditional map that rewrites every matching row to the
fixed row v, when some row matches. -/
theorem find?_map_of_any {α : Type} (p : α → Bool) (g : α → α) (v : α)
    (hgv : ∀ x, p x = true → g x = v) (hv : p v = true) :
    ∀ l : List α, l.any p = true →
      (l.map (fun x => if p x then g x else x)).find? p = some v := by
  intro l
  induction l with
  | nil => intro h; simp at h
  | cons b t ih =>
    intro hany
    rw [List.map_cons]
    by_cases hb : p b = true
    · rw [if_pos hb, hgv b hb, List.find?_cons_of_pos _ hv]
    · rw [if_neg hb, List.find?_cons_of_neg _ hb]
      refine ih ?_
      rcases List.any_eq_true.mp hany with ⟨x, hx, hpx⟩
      rcases List.mem_cons.mp hx with rfl | hxt
      · exact absurd hpx hb
      · exact List.any_eq_true.mpr ⟨x, hxt, hpx⟩

/-- find? over the insert-or-update shape used by the three upserts. -/
theorem upsertShape_find? {α : Type} (p : α → Bool) (g : α → α) (v : α) (l : List α)
    (hgv : ∀ x, p x = true → g x = v) (hv : p v = true) :
    (if l.any p then l.map (fun x => if p x then g x else x) else l ++ [v]).find? p
      = some v := by
  by_cases hany : l.any p = true
  · rw [if_pos hany]
    exact find?_map_of_any p g v hgv hv l hany
  · rw [if_neg hany]
    refine find?_append_of_all_neg p l v ?_ hv
    intro x hx hpx
    exact hany (List.any_eq_true.mpr ⟨x, hx, hpx⟩)

/-! Characterizations of the resolver and the enumerator. -/

/-- robotBySerial finds exactly the row of a serial present in a table with
pairwise distinct serial numbers. -/
theorem robotBySerial_of_mem (st : DbState) (r : Robot) (hr : r ∈ st.robots)
    (hnd : (st.robots.map Robot.serialNumber).Nodup) :
    robotBySerial st r.serialNumber = some r := by
  unfold robotBySerial
  exact find?_key_unique Robot.serialNumber st.robots r hr hnd

/-- permissionOf finds exactly the row of a (serial, user) key present in a
table with pairwise distinct keys. -/
theorem permissionOf_of_mem (st : DbState) (p : RobotPermission)
    (hp : p ∈ st.robotPermissions) (hnd : permKeysNodup st) :
    permissionOf st p.robotSerialNumber p.userId = some p := by
  unfold permKeysNodup at hnd
  unfold permissionOf
  exact find?_pairkey_unique (fun q : RobotPermission => q.robotSerialNumber)
    (fun q : RobotPermission => q.userId) st.robotPermissions p hp hnd

/-- permissionOf is populated exactly when an explicit row exists. -/
theorem permissionOf_isSome_iff (st : DbState) (s : String) (u : Nat) :
    (permissionOf st s u).isSome = true ↔
      ∃ p ∈ st.robotPermissions, p.userId = u ∧ p.robotSerialNumber = s := by
  unfold permissionOf
  rw [List.find?_isSome]
  constructor
  · rintro ⟨p, hp, hcond⟩
    rw [Bool.and_eq_true] at hcond
    exact ⟨p, hp, eq_of_beq hcond.2, eq_of_beq hcond.1⟩
  · rintro ⟨p, hp, h1, h2⟩
    refine ⟨p, hp, ?_⟩
    rw [Bool.and_eq_true]
    exact ⟨beq_iff_eq.mpr h2, beq_iff_eq.mpr h1⟩

/-- Unfolding of the resolver once the robot row is found. -/
theorem resolve_found (st : DbState) (u : Nat) (s : String) (r : Robot)
    (hr : robotBySerial st s = some r) :
    getUserRobotPermission st u s =
      (if r.ownerUserId = some u then some PermissionType.admin
       else if groupAdminCheck st r.ownerGroupId u then some PermissionType.admin
       else if r.assignedUserId = some u then some PermissionType.usage
       else match permissionOf st s u with
            | some p => some p.permissionType
            | none => none) := by
  unfold getUserRobotPermission
  rw [hr]

/-- Unfolding of the resolver when no robot row carries the serial. -/
theorem resolve_missing (st : DbState) (u : Nat) (s : String)
    (hr : robotBySerial st s = none) :
    getUserRobotPermission st u s = none := by
  unfold getUserRobotPermission
  rw [hr]

/-- The resolver returns a level exactly when one of its four source tests
fires on the robot row found for the serial. -/
theorem resolve_ne_none_iff (st : DbState) (u : Nat) (s : String) (r : Robot)
    (hr : robotBySerial st s = some r) :
    getUserRobotPermission st u s ≠ none ↔
      (r.ownerUserId = some u ∨ groupAdminCheck st r.ownerGroupId u = true
       ∨ r.assignedUserId = some u ∨ (permissionOf st s u).isSome = true) := by
  rw [resolve_found st u s r hr]
  by_cases h1 : r.ownerUserId = some u
  · simp [h1]
  · rw [if_neg h1]
    by_cases h2 : groupAdminCheck st r.ownerGroupId u = true
    · simp [h1, h2]
    · rw [if_neg h2]
      by_cases h3 : r.assignedUserId = some u
      · simp [h1, h2, h3]
      · rw [if_neg h3]
        cases hp : permissionOf st s u with
        | none => simp [h1, h2, h3, hp]
        | some p => simp [h1, h2, h3, hp]

/-- Characterization of the group-ownership disjunct of the enumerator
filter. -/
theorem ownerGroup_any_iff (st : DbState) (u : Nat) (r : Robot) :
    ((match r.ownerGroupId with
      | some g =>
        ((st.groupMemberships.filter (fun m => m.userId == u)).map
          (fun m => m.groupId)).any (fun g2 => g2 == g)
      | none => false) = true) ↔
      ∃ m ∈ st.groupMemberships, m.userId = u ∧ r.ownerGroupId = some m.groupId := by
  cases hog : r.ownerGroupId with
  | none =>
    constructor
    · intro h; cases h
    · rintro ⟨m, _, _, hmg⟩; cases hmg
  | some gid =>
    rw [show (match some gid with
      | some g =>
        ((st.groupMemberships.filter (fun m => m.userId == u)).map
          (fun m => m.groupId)).any (fun g2 => g2 == g)
      | none => false)
      = ((st.groupMemberships.filter (fun m => m.userId == u)).map
          (fun m => m.groupId)).any (fun g2 => g2 == gid) from rfl]
    rw [List.any_eq_true]
    constructor
    · rintro ⟨g2, hg2, hbeq⟩
      rcases List.mem_map.mp hg2 with ⟨m, hm, hmg⟩
      rcases List.mem_filter.mp hm with ⟨hmm, hmu⟩
      refine ⟨m, hmm, eq_of_beq hmu, ?_⟩
      rw [hmg, eq_of_beq hbeq]
    · rintro ⟨m, hm, hmu, hmg⟩
      have hgid : m.groupId = gid := by injection hmg.symm
      refine ⟨m.groupId, ?_, by rw [hgid]; simp⟩
      exact List.mem_map.mpr ⟨m, List.mem_filter.mpr ⟨hm, beq_iff_eq.mpr hmu⟩, rfl⟩

/-- Characterization of the explicit-permission disjunct of the enumerator
filter. -/
theorem permSerials_any_iff (st : DbState) (u : Nat) (r : Robot) :
    (((st.robotPermissions.filter (fun p => p.userId == u)).map
        (fun p => p.robotSerialNumber)).any (fun s => s == r.serialNumber) = true) ↔
      ∃ p ∈ st.robotPermissions, p.userId = u ∧ p.robotSerialNumber = r.serialNumber := by
  rw [List.any_eq_true]
  constructor
  · rintro ⟨s2, hs2, hbeq⟩
    rcases List.mem_map.mp hs2 with ⟨p, hp, hps⟩
    rcases List.mem_filter.mp hp with ⟨hpm, hpu⟩
    refine ⟨p, hpm, eq_of_beq hpu, ?_⟩
    rw [hps, eq_of_beq hbeq]
  · rintro ⟨p, hp, hpu, hps⟩
    refine ⟨p.robotSerialNumber, ?_, beq_iff_eq.mpr hps⟩
    exact List.mem_map.mpr ⟨p, List.mem_filter.mpr ⟨hp, beq_iff_eq.mpr hpu⟩, rfl⟩

/-- Membership in the enumerator output, phrased through the four indexed
conditions of the SQL WHERE clause. -/
theorem mem_getAccessibleRobots_iff (st : DbState) (u : Nat) (r : Robot) :
    r ∈ getAccessibleRobots st u ↔
      r ∈ st.robots ∧
        ((∃ m ∈ st.groupMemberships, m.userId = u ∧ r.ownerGroupId = some m.groupId)
         ∨ (∃ p ∈ st.robotPermissions, p.userId = u ∧ p.robotSerialNumber = r.serialNumber)
         ∨ r.ownerUserId = some u ∨ r.assignedUserId = some u) := by
  unfold getAccessibleRobots
  rw [List.mem_filter]
  refine and_congr_right fun _ => ?_
  rw [Bool.or_eq_true, Bool.or_eq_true, Bool.or_eq_true]
  rw [ownerGroup_any_iff st u r, permSerials_any_iff st u r]
  constructor
  · rintro (((hg | hperm) | howner) | hassigned)
    · exact Or.inl hg
    · exact Or.inr (Or.inl hperm)
    · exact Or.inr (Or.inr (Or.inl (eq_of_beq howner)))
    · exact Or.inr (Or.inr (Or.inr (eq_of_beq hassigned)))
  · rintro (hg | hperm | howner | hassigned)
    · exact Or.inl (Or.inl (Or.inl hg))
    · exact Or.inl (Or.inl (Or.inr hperm))
    · exact Or.inl (Or.inr (beq_iff_eq.mpr howner))
    · exact Or.inr (beq_iff_eq.mpr hassigned)

/-- The group-admin source of the resolver implies plain membership in the
owning group, once every group owner holds a membership row. -/
theorem groupAdminCheck_gives_membership (st : DbState) (og : Option Nat) (u : Nat)
    (hinv : ownerMembershipInvB st = true) (h : groupAdminCheck st og u = true) :
    ∃ m ∈ st.groupMemberships, m.userId = u ∧ og = some m.groupId := by
  cases og with
  | none => simp [groupAdminCheck] at h
  | some gid =>
    unfold groupAdminCheck at h
    rw [Bool.or_eq_true] at h
    rcases h with h | h
    · cases hg : groupById st gid with
      | none => rw [hg] at h; simp at h
      | some g =>
        rw [hg] at h
        have hgf : st.groups.find? (fun g0 => g0.id == gid) = some g := hg
        have hgu : g.ownerId = u := eq_of_beq h
        have hmemg : g ∈ st.groups := List.mem_of_find?_eq_some hgf
        have hgidb := @List.find?_some _ _ _ _ hgf
        have hgid : g.id = gid := eq_of_beq hgidb
        have hown := List.all_eq_true.mp hinv g hmemg
        rcases List.any_eq_true.mp hown with ⟨m, hm, hmp⟩
        rw [Bool.and_eq_true] at hmp
        refine ⟨m, hm, ?_, ?_⟩
        · rw [eq_of_beq hmp.2, hgu]
        · rw [eq_of_beq hmp.1, hgid]
    · cases hm : membershipOf st gid u with
      | none => rw [hm] at h; simp at h
      | some m =>
        rw [hm] at h
        have hmf : st.groupMemberships.find? (fun m0 => m0.groupId == gid && m0.userId == u)
            = some m := hm
        have hcond := List.find?_some hmf
        rw [Bool.and_eq_true] at hcond
        exact ⟨m, List.mem_of_find?_eq_some hmf, eq_of_beq hcond.2,
               by rw [eq_of_beq hcond.1]⟩

/-- When the resolver grants a level, the enumerator lists the serial, once
every group owner holds a membership row. -/
theorem accessible_of_resolve (st : DbState) (u : Nat) (s : String)
    (hinv : ownerMembershipInvB st = true)
    (h : getUserRobotPermission st u s ≠ none) :
    (getAccessibleRobots st u).any (fun r => r.serialNumber == s) = true := by
  cases hro : robotBySerial st s with
  | none => exact absurd (resolve_missing st u s hro) h
  | some r0 =>
    have hrf : st.robots.find? (fun r1 => r1.serialNumber == s) = some r0 := hro
    have hmem : r0 ∈ st.robots := List.mem_of_find?_eq_some hrf
    have hserb := @List.find?_some _ _ _ _ hrf
    have hser : r0.serialNumber = s := eq_of_beq hserb
    have hsrc := (resolve_ne_none_iff st u s r0 hro).mp h
    have hP : r0 ∈ getAccessibleRobots st u := by
      rw [mem_getAccessibleRobots_iff]
      refine ⟨hmem, ?_⟩
      rcases hsrc with hO | hGA | hA | hE
      · exact Or.inr (Or.inr (Or.inl hO))
      · exact Or.inl (groupAdminCheck_gives_membership st r0.ownerGroupId u hinv hGA)
      · exact Or.inr (Or.inr (Or.inr hA))
      · rcases (permissionOf_isSome_iff st s u).mp hE with ⟨p, hp, hpu, hps⟩
        exact Or.inr (Or.inl ⟨p, hp, hpu, by rw [hps, hser]⟩)
    exact List.any_eq_true.mpr ⟨r0, hP, beq_iff_eq.mpr hser⟩

/-- An admin answer from the resolver implies the hasAdminPermission gate
passes for the same robot row. -/
theorem hasAdmin_of_resolve_admin (st : DbState) (u : Nat) (s : String) (r : Robot)
    (hr : robotBySerial st s = some r)
    (h : getUserRobotPermission st u s = some PermissionType.admin) :
    hasAdminPermission st u s r.ownerUserId r.ownerGroupId = true := by
  rw [resolve_found st u s r hr] at h
  unfold hasAdminPermission
  by_cases h1 : r.ownerUserId = some u
  · rw [if_pos h1]
  · rw [if_neg h1] at h ⊢
    by_cases h2 : groupAdminCheck st r.ownerGroupId u = true
    · rw [if_pos h2]
    · rw [if_neg h2] at h ⊢
      by_cases h3 : r.assignedUserId = some u
      · rw [if_pos h3] at h
        cases h
      · rw [if_neg h3] at h
        cases hp : permissionOf st s u with
        | none =>
          rw [hp] at h
          exact Option.noConfusion h
        | some p =>
          rw [hp] at h
          have h3 : p.permissionType = PermissionType.admin := by
            have h2 : some p.permissionType = some PermissionType.admin := h
            injection h2
          show (p.permissionType == PermissionType.admin) = true
          rw [h3]
          rfl

/-- After the grant upsert, the (serial, user) lookup returns the new row. -/
theorem permissionOf_upsert (l : List RobotPermission) (s : String) (uid : Nat)
    (ptype : PermissionType) (gb : Option Nat) :
    (upsertPermissionRow l s uid ptype gb).find?
        (fun p => p.robotSerialNumber == s && p.userId == uid)
      = some ⟨s, uid, ptype, gb⟩ := by
  unfold upsertPermissionRow
  refine upsertShape_find? _ _ _ l ?_ (by simp)
  intro x hx
  rw [Bool.and_eq_true] at hx
  have h1 : x.robotSerialNumber = s := eq_of_beq hx.1
  have h2 : x.userId = uid := eq_of_beq hx.2
  cases x
  simp only at h1 h2
  rw [h1, h2]

/-- After the settings upsert, the (serial, user) lookup returns the new row. -/
theorem settingOf_upsert (l : List RobotSetting) (s : String) (uid : Nat) (blob : Jsonb) :
    (upsertSettingRow l s uid blob).find?
        (fun row => row.robotSerialNumber == s && row.userId == uid)
      = some ⟨s, uid, blob⟩ := by
  unfold upsertSettingRow
  refine upsertShape_find? _ _ _ l ?_ (by simp)
  intro x hx
  rw [Bool.and_eq_true] at hx
  have h1 : x.robotSerialNumber = s := eq_of_beq hx.1
  have h2 : x.userId = uid := eq_of_beq hx.2
  cases x
  simp only at h1 h2
  rw [h1, h2]

/-- The grant upsert preserves uniqueness of the (serial, user) key. -/
theorem upsertPermissionRow_keys_nodup (l : List RobotPermission) (s : String)
    (uid : Nat) (ptype : PermissionType) (gb : Option Nat)
    (hnd : (l.map (fun p => (p.robotSerialNumber, p.userId))).Nodup) :
    ((upsertPermissionRow l s uid ptype gb).map
        (fun p => (p.robotSerialNumber, p.userId))).Nodup := by
  unfold upsertPermissionRow
  by_cases hany : l.any (fun p => p.robotSerialNumber == s && p.userId == uid) = true
  · rw [if_pos hany, List.map_map]
    have hkeys : ((fun p : RobotPermission => (p.robotSerialNumber, p.userId)) ∘
        (fun p => if p.robotSerialNumber == s && p.userId == uid then
          { p with permissionType := ptype, grantedById := gb } else p))
        = fun p : RobotPermission => (p.robotSerialNumber, p.userId) := by
      funext p
      by_cases hp : (p.robotSerialNumber == s && p.userId == uid) = true
      · simp [Function.comp, hp]
      · simp [Function.comp, hp]
    rw [hkeys]
    exact hnd
  · rw [if_neg hany, List.map_append]
    rw [List.nodup_append]
    refine ⟨hnd, List.nodup_singleton _, ?_⟩
    intro k hk hk2
    rcases List.mem_map.mp hk with ⟨p, hp, hpk⟩
    have hks : k = (s, uid) := by
      rcases List.mem_singleton.mp hk2 with rfl
      rfl
    apply hany
    refine List.any_eq_true.mpr ⟨p, hp, ?_⟩
    rw [Bool.and_eq_true]
    have h1 : p.robotSerialNumber = s := by
      have := hpk.trans hks
      exact congrArg Prod.fst this
    have h2 : p.userId = uid := by
      have := hpk.trans hks
      exact congrArg Prod.snd this
    exact ⟨beq_iff_eq.mpr h1, beq_iff_eq.mpr h2⟩

/-- find? by serial commutes with the assignment-update map, which rewrites
exactly the rows of that serial. -/
theorem find?_assign_map (l : List Robot) (s : String) (v : Option Nat) :
    (l.map (fun r => if r.serialNumber == s then { r with assignedUserId := v } else r)).find?
        (fun r => r.serialNumber == s)
      = (l.find? (fun r => r.serialNumber == s)).map
          (fun r => { r with assignedUserId := v }) := by
  induction l with
  | nil => rfl
  | cons b t ih =>
    rw [List.map_cons]
    by_cases hb : (b.serialNumber == s) = true
    · rw [if_pos hb]
      have l1 : List.find? (fun r : Robot => r.serialNumber == s)
          ({ b with assignedUserId := v } ::
            t.map (fun r => if r.serialNumber == s then { r with assignedUserId := v } else r))
          = some { b with assignedUserId := v } := by
        apply List.find?_cons_of_pos
        exact hb
      have l2 : List.find? (fun r : Robot => r.serialNumber == s) (b :: t) = some b := by
        apply List.find?_cons_of_pos
        exact hb
      rw [l1, l2]
      rfl
    · rw [if_neg hb]
      have l1 : List.find? (fun r : Robot => r.serialNumber == s)
          (b :: t.map (fun r => if r.serialNumber == s then { r with assignedUserId := v } else r))
          = List.find? (fun r : Robot => r.serialNumber == s)
              (t.map (fun r => if r.serialNumber == s then { r with assignedUserId := v } else r)) := by
        apply List.find?_cons_of_neg
        exact hb
      have l2 : List.find? (fun r : Robot => r.serialNumber == s) (b :: t)
          = List.find? (fun r : Robot => r.serialNumber == s) t := by
        apply List.find?_cons_of_neg
        exact hb
      rw [l1, l2]
      exact ih

/-! Unfolding lemmas for the mutating operations once their lookups hit. -/

/-- Unfolding of removeMember once the group row is found. -/
theorem removeMember_found (st : DbState) (actorId groupId targetId : Nat) (g : Group)
    (hg : groupById st groupId = some g) :
    removeMember st actorId groupId targetId =
      (if !(groupActorIsAdmin st g groupId actorId) then Except.error groupAdminRequiredErr
       else if (membershipOf st groupId targetId).isNone then Except.error memberNotFoundErr
       else if g.ownerId == targetId then Except.error ownerRemoveErr
       else Except.ok { st with groupMemberships :=
         st.groupMemberships.filter (fun m => !(m.groupId == groupId && m.userId == targetId)) }) := by
  unfold removeMember
  rw [hg]

/-- Unfolding of grantPermission once the robot row is found. -/
theorem grantPermission_found (st : DbState) (actorId : Nat) (s : String)
    (targetUserId : Nat) (ptype : PermissionType) (r : Robot)
    (hr : robotBySerial st s = some r) :
    grantPermission st actorId s targetUserId ptype =
      (if !(hasAdminPermission st actorId s r.ownerUserId r.ownerGroupId) then
         Except.error adminRequiredErr
       else if r.ownerUserId == some targetUserId then Except.error ownersAlreadyErr
       else Except.ok { st with robotPermissions := upsertPermissionRow st.robotPermissions s targetUserId ptype (some actorId) }) := by
  unfold grantPermission
  rw [hr]

/-- Unfolding of assignRobot once the robot row is found and is group-owned. -/
theorem assignRobot_found (st : DbState) (actorId : Nat) (s : String)
    (targetUserId : Option Nat) (r : Robot) (gid : Nat)
    (hr : robotBySerial st s = some r) (hog : r.ownerGroupId = some gid) :
    assignRobot st actorId s targetUserId =
      (if !(hasAdminPermission st actorId s r.ownerUserId (some gid)) then
         Except.error adminRequiredErr
       else if !(st.groupMemberships.any
           (fun m => m.groupId == gid && some m.userId == targetUserId)) then
         Except.error mustBelongErr
       else Except.ok { st with robots := st.robots.map (fun r2 => if r2.serialNumber == s then { r2 with assignedUserId := targetUserId } else r2) }) := by
  unfold assignRobot
  rw [hr]
  show (match r.ownerGroupId with
        | none => Except.error onlyGroupOwnedErr
        | some gid2 =>
          if !(hasAdminPermission st actorId s r.ownerUserId r.ownerGroupId) then
            Except.error adminRequiredErr
          else if !(st.groupMemberships.any
              (fun m => m.groupId == gid2 && some m.userId == targetUserId)) then
            Except.error mustBelongErr
          else Except.ok { st with robots := st.robots.map (fun r2 : Robot => if r2.serialNumber == s then { r2 with assignedUserId := targetUserId } else r2) })
      = _
  rw [hog]

/-! Claim theorems. -/

/-- Claim C1: the claim asks resolve to be the maximum over all sources, so
an assigned user holding an explicit ADMIN row must resolve to admin. The
code disagrees: at a state where user 2 is the assigned user of the
group-owned robot R1 and also holds an explicit ADMIN permission row,
getUserRobotPermission answers USAGE, because the assigned-user test
returns before the explicit-row test; the hasAdminPermission gate on the
very same state answers true, so the two resolvers of the service
contradict each other. -/
theorem resolver_ignores_admin_row_for_assigned_user :
    getUserRobotPermission stAssignedGrantee 2 "R1" = some PermissionType.usage
    ∧ hasAdminPermission stAssignedGrantee 2 "R1" none (some 1) = true :=
  ⟨rfl, rfl⟩

/-- Claim C2, counterexample: user 2 is a plain MEMBER of the group owning
robot R1; getAccessibleRobots lists R1 for user 2 while resolve answers
none, so the union is not a subset of the accessible set of the claim. -/
theorem plain_member_listed_but_resolve_none :
    (getAccessibleRobots stPlainMember 2).any (fun r => r.serialNumber == "R1") = true
    ∧ getUserRobotPermission stPlainMember 2 "R1" = none :=
  ⟨rfl, rfl⟩

/-- Claim C2 (amended): for robots with pairwise distinct serial numbers,
and states where every group owner holds a membership row, the enumerator
lists exactly the robots whose resolve is non-none or whose owning group
the user plainly belongs to — the union overshoots resolve by exactly the
plain members of the owning group. -/
theorem accessible_iff_resolve_or_plain_membership (st : DbState) (u : Nat) (r : Robot)
    (hnd : (st.robots.map Robot.serialNumber).Nodup)
    (hinv : ownerMembershipInvB st = true)
    (hr : r ∈ st.robots) :
    r ∈ getAccessibleRobots st u ↔
      (getUserRobotPermission st u r.serialNumber ≠ none
       ∨ ∃ m ∈ st.groupMemberships, m.userId = u ∧ r.ownerGroupId = some m.groupId) := by
  have hro := robotBySerial_of_mem st r hr hnd
  rw [mem_getAccessibleRobots_iff, resolve_ne_none_iff st u r.serialNumber r hro]
  constructor
  · rintro ⟨_, hM | hE | hO | hA⟩
    · exact Or.inr hM
    · exact Or.inl (Or.inr (Or.inr (Or.inr
        ((permissionOf_isSome_iff st r.serialNumber u).mpr hE))))
    · exact Or.inl (Or.inl hO)
    · exact Or.inl (Or.inr (Or.inr (Or.inl hA)))
  · rintro ((hO | hGA | hA | hE) | hM)
    · exact ⟨hr, Or.inr (Or.inr (Or.inl hO))⟩
    · exact ⟨hr, Or.inl (groupAdminCheck_gives_membership st r.ownerGroupId u hinv hGA)⟩
    · exact ⟨hr, Or.inr (Or.inr (Or.inr hA))⟩
    · exact ⟨hr, Or.inr (Or.inl ((permissionOf_isSome_iff st r.serialNumber u).mp hE))⟩
    · exact ⟨hr, Or.inl hM⟩

/-- Claim C2, witness of the amended theorem at a concrete state. -/
theorem accessible_iff_resolve_or_plain_membership_witness :
    (⟨"R1", "Bot", none, none, some 1, none⟩ : Robot) ∈ getAccessibleRobots stPlainMember 2 ↔
      (getUserRobotPermission stPlainMember 2 "R1" ≠ none
       ∨ ∃ m ∈ stPlainMember.groupMemberships, m.userId = 2 ∧
           (⟨"R1", "Bot", none, none, some 1, none⟩ : Robot).ownerGroupId = some m.groupId) :=
  accessible_iff_resolve_or_plain_membership stPlainMember 2
    ⟨"R1", "Bot", none, none, some 1, none⟩ (by decide) (by decide) (by decide)

/-- Claim C3, counterexample: with no robot named R1 anywhere, the resolver
returns the null level — the very same value an existing robot yields for
a user with no access — instead of failing NotFound. -/
theorem missing_serial_returns_null_level :
    emptyDb.robots = []
    ∧ getUserRobotPermission emptyDb 1 "R1" = none
    ∧ getUserRobotPermission stPlainMember 3 "R1" = none :=
  ⟨rfl, rfl, rfl⟩

/-- Claim C3 (amended): for a serial with no robot row, getUserRobotPermission
returns none — the same value as the no-permission steady state — and it is
the HTTP handlers (here assignRobot) that produce the 404 NotFound by looking
the robot up before resolving. -/
theorem resolve_and_handlers_on_missing_serial (st : DbState) (u : Nat) (s : String)
    (t : Option Nat) (h : ∀ r ∈ st.robots, r.serialNumber ≠ s) :
    getUserRobotPermission st u s = none
    ∧ assignRobot st u s t = Except.error robotNotFoundErr := by
  have hro : robotBySerial st s = none := by
    unfold robotBySerial
    rw [List.find?_eq_none]
    intro r hr hb
    exact h r hr (eq_of_beq hb)
  constructor
  · exact resolve_missing st u s hro
  · unfold assignRobot
    rw [hro]

/-- Claim C3, witness of the amended theorem at the empty database. -/
theorem resolve_and_handlers_on_missing_serial_witness :
    getUserRobotPermission emptyDb 1 "R1" = none
    ∧ assignRobot emptyDb 1 "R1" (some 2) = Except.error robotNotFoundErr :=
  resolve_and_handlers_on_missing_serial emptyDb 1 "R1" (some 2) (by decide)

/-- Claim C4, counterexample: the group owner starts with an ADMIN
membership row; upsertMember with the owner as target and role MEMBER
succeeds and demotes the owner membership role to MEMBER, so the owner role
is not immutable under upsertMembership. -/
theorem upsert_membership_demotes_owner :
    membershipOf stOwnerGroup 1 1 = some ⟨1, 1, GroupRole.admin⟩
    ∧ Except.map (fun st => membershipOf st 1 1)
        (upsertMember stOwnerGroup 1 1 1 GroupRole.member)
      = Except.ok (some ⟨1, 1, GroupRole.member⟩) :=
  ⟨rfl, rfl⟩

/-- Claim C4 (amended): removeMember targeting the group owner never
succeeds — the membership table is left unchanged — and when the actor has
group-admin authority and the owner membership row exists the failure is
exactly the owner Conflict; the owner role, however, can be rewritten by
upsertMember. -/
theorem owner_membership_removal_always_fails (st : DbState) (actorId groupId : Nat)
    (g : Group) (hg : groupById st groupId = some g) :
    (removeMember st actorId groupId g.ownerId).isOk = false
    ∧ (groupActorIsAdmin st g groupId actorId = true →
        (membershipOf st groupId g.ownerId).isSome = true →
        removeMember st actorId groupId g.ownerId = Except.error ownerRemoveErr) := by
  rw [removeMember_found st actorId groupId g.ownerId g hg]
  by_cases hadm : groupActorIsAdmin st g groupId actorId = true
  · rw [hadm]
    rw [if_neg (by simp)]
    by_cases hm : (membershipOf st groupId g.ownerId).isNone = true
    · rw [if_pos hm]
      refine ⟨rfl, fun _ hsome => ?_⟩
      exfalso
      cases hopt : membershipOf st groupId g.ownerId with
      | none => rw [hopt] at hsome; exact Bool.noConfusion hsome
      | some m => rw [hopt] at hm; exact Bool.noConfusion hm
    · rw [if_neg hm]
      rw [if_pos (show (g.ownerId == g.ownerId) = true by simp)]
      exact ⟨rfl, fun _ _ => rfl⟩
  · have hadm2 : groupActorIsAdmin st g groupId actorId = false := by
      cases hx : groupActorIsAdmin st g groupId actorId with
      | true => exact absurd hx hadm
      | false => rfl
    rw [hadm2]
    rw [if_pos (by simp)]
    exact ⟨rfl, fun h2 _ => Bool.noConfusion h2⟩

/-- Claim C4, witness of the amended theorem at a concrete state. -/
theorem owner_membership_removal_always_fails_witness :
    (removeMember stOwnerGroup 1 1 (⟨1, "G", 1⟩ : Group).ownerId).isOk = false
    ∧ (groupActorIsAdmin stOwnerGroup ⟨1, "G", 1⟩ 1 1 = true →
        (membershipOf stOwnerGroup 1 (⟨1, "G", 1⟩ : Group).ownerId).isSome = true →
        removeMember stOwnerGroup 1 1 (⟨1, "G", 1⟩ : Group).ownerId
          = Except.error ownerRemoveErr) :=
  owner_membership_removal_always_fails stOwnerGroup 1 1 ⟨1, "G", 1⟩ (by decide)

/-- Claim C5, counterexample: from the empty database the chain create
group, add member 2, register R1, assign R1 to 2 reaches a state satisfying
the assigned-member invariant; removeMember of user 2 then succeeds and the
resulting state violates the invariant — R1 stays assigned to a user who is
no longer a member of the owning group. -/
theorem remove_member_breaks_assigned_invariant :
    removeAssignedMemberChain = Except.ok stPlainMemberAssigned
    ∧ assignedMemberInvB stPlainMemberAssigned = true
    ∧ Except.map assignedMemberInvB (removeMember stPlainMemberAssigned 1 1 2)
        = Except.ok false :=
  ⟨rfl, rfl, rfl⟩

/-- Claim C5 (amended): a successful assignRobot does establish the claimed
condition — the robot it targeted is group-owned and its new assigned user
is a current member of the owning group in the post-state. The invariant
fails only because removeMember does not preserve it. -/
theorem assign_robot_establishes_member_assignment (st : DbState) (actorId : Nat)
    (s : String) (t : Nat) (st' : DbState) (r0 : Robot) (gid : Nat)
    (hr0 : robotBySerial st s = some r0) (hgid : r0.ownerGroupId = some gid)
    (h : assignRobot st actorId s (some t) = Except.ok st') :
    robotBySerial st' s = some { r0 with assignedUserId := some t }
    ∧ st'.groupMemberships.any
        (fun m => m.groupId == gid && some m.userId == some t) = true := by
  rw [assignRobot_found st actorId s (some t) r0 gid hr0 hgid] at h
  by_cases hadm : hasAdminPermission st actorId s r0.ownerUserId (some gid) = true
  · rw [hadm] at h
    rw [if_neg (by simp)] at h
    by_cases hmem : (st.groupMemberships.any
        (fun m => m.groupId == gid && some m.userId == some t)) = true
    · rw [hmem] at h
      rw [if_neg (by simp)] at h
      injection h with h
      subst h
      constructor
      · show (st.robots.map (fun r2 =>
            if r2.serialNumber == s then { r2 with assignedUserId := some t } else r2)).find?
            (fun r => r.serialNumber == s) = some { r0 with assignedUserId := some t }
        rw [find?_assign_map]
        rw [show st.robots.find? (fun r => r.serialNumber == s) = some r0 from hr0]
        rfl
      · exact hmem
    · have hmem2 : (st.groupMemberships.any
          (fun m => m.groupId == gid && some m.userId == some t)) = false := by
        cases hx : st.groupMemberships.any
            (fun m => m.groupId == gid && some m.userId == some t) with
        | true => exact absurd hx hmem
        | false => rfl
      rw [hmem2] at h
      rw [if_pos (by simp)] at h
      exact Except.noConfusion h
  · have hadm2 : hasAdminPermission st actorId s r0.ownerUserId (some gid) = false := by
      cases hx : hasAdminPermission st actorId s r0.ownerUserId (some gid) with
      | true => exact absurd hx hadm
      | false => rfl
    rw [hadm2] at h
    rw [if_pos (by simp)] at h
    exact Except.noConfusion h

/-- Claim C5, witness of the amended theorem at a concrete state. -/
theorem assign_robot_establishes_member_assignment_witness :
    robotBySerial stPlainMemberAssigned "R1"
        = some ⟨"R1", "Bot", none, none, some 1, some 2⟩
    ∧ stPlainMemberAssigned.groupMemberships.any
        (fun m => m.groupId == 1 && some m.userId == some 2) = true :=
  assign_robot_establishes_member_assignment stPlainMember 1 "R1" 2
    stPlainMemberAssigned ⟨"R1", "Bot", none, none, some 1, none⟩ 1 rfl rfl rfl

/-- Claim C6: createGroup runs the group INSERT and the owner-membership
INSERT as two separate auto-committing statements with no transaction; with
the second INSERT failing, the handler reports failure while the state
keeps the group row with no membership row for it — a partially applied
state the claim says cannot exist. -/
theorem create_group_failure_leaves_partial_state :
    (createGroup emptyDb 1 "G" false).2 = false
    ∧ (createGroup emptyDb 1 "G" false).1.groups = [⟨1, "G", 1⟩]
    ∧ (createGroup emptyDb 1 "G" false).1.groupMemberships = [] :=
  ⟨rfl, rfl, rfl⟩

/-- Claim C7: with actor 1 resolving to admin on both robots, assignRobot
fails InvalidOperation on the user-owned robot and on a non-member target
as claimed, but a null target also fails with the member error — the SQL
membership probe never matches a null user id — instead of clearing the
assignment as the claim (and the route message about using 0 to unassign)
promises. -/
theorem assign_null_target_rejected_not_cleared :
    getUserRobotPermission stTwoRobots 1 "R1" = some PermissionType.admin
    ∧ getUserRobotPermission stTwoRobots 1 "R2" = some PermissionType.admin
    ∧ assignRobot stTwoRobots 1 "R2" (some 2) = Except.error onlyGroupOwnedErr
    ∧ assignRobot stTwoRobots 1 "R1" (some 3) = Except.error mustBelongErr
    ∧ assignRobot stTwoRobots 1 "R1" none = Except.error mustBelongErr :=
  ⟨rfl, rfl, rfl, rfl, rfl⟩

/-- Claim C8: with resolve(actor) = admin on the found robot,
grantPermission fails InvalidOperation exactly when the target is the direct
owner; otherwise it succeeds with the ON CONFLICT upsert — the (asset, user)
row afterwards carries the new level and granter, and key uniqueness of the
permission table is preserved, so re-granting never duplicates. -/
theorem grant_permission_owner_guard_and_upsert (st : DbState) (actorId : Nat)
    (serial : String) (targetUserId : Nat) (ptype : PermissionType) (r : Robot)
    (hr : robotBySerial st serial = some r)
    (hres : getUserRobotPermission st actorId serial = some PermissionType.admin) :
    (r.ownerUserId = some targetUserId →
       grantPermission st actorId serial targetUserId ptype
         = Except.error ownersAlreadyErr)
    ∧ (r.ownerUserId ≠ some targetUserId →
       grantPermission st actorId serial targetUserId ptype
         = Except.ok { st with robotPermissions := upsertPermissionRow st.robotPermissions serial targetUserId ptype (some actorId) }
       ∧ permissionOf { st with robotPermissions := upsertPermissionRow st.robotPermissions serial targetUserId ptype (some actorId) }
           serial targetUserId = some ⟨serial, targetUserId, ptype, some actorId⟩
       ∧ (permKeysNodup st → permKeysNodup { st with robotPermissions := upsertPermissionRow st.robotPermissions serial targetUserId ptype (some actorId) })) := by
  have hadm := hasAdmin_of_resolve_admin st actorId serial r hr hres
  rw [grantPermission_found st actorId serial targetUserId ptype r hr, hadm]
  rw [if_neg (by simp)]
  constructor
  · intro hown
    rw [if_pos (by rw [hown]; simp)]
  · intro hown
    have hcond : ¬ ((r.ownerUserId == some targetUserId) = true) := by
      intro hb
      exact hown (eq_of_beq hb)
    rw [if_neg hcond]
    refine ⟨rfl, ?_, ?_⟩
    · show (upsertPermissionRow st.robotPermissions serial targetUserId ptype
          (some actorId)).find?
          (fun p => p.robotSerialNumber == serial && p.userId == targetUserId)
        = some ⟨serial, targetUserId, ptype, some actorId⟩
      exact permissionOf_upsert st.robotPermissions serial targetUserId ptype (some actorId)
    · intro hk
      show ((upsertPermissionRow st.robotPermissions serial targetUserId ptype
          (some actorId)).map (fun p => (p.robotSerialNumber, p.userId))).Nodup
      exact upsertPermissionRow_keys_nodup st.robotPermissions serial targetUserId
        ptype (some actorId) hk

/-- Claim C8, witness of the theorem at a concrete state. -/
theorem grant_permission_owner_guard_and_upsert_witness :
    ((⟨"R1", "Bot", none, some 1, none, none⟩ : Robot).ownerUserId = some 2 →
       grantPermission stUserOwned 1 "R1" 2 PermissionType.usage
         = Except.error ownersAlreadyErr)
    ∧ ((⟨"R1", "Bot", none, some 1, none, none⟩ : Robot).ownerUserId ≠ some 2 →
       grantPermission stUserOwned 1 "R1" 2 PermissionType.usage
         = Except.ok { stUserOwned with robotPermissions := upsertPermissionRow stUserOwned.robotPermissions "R1" 2 PermissionType.usage (some 1) }
       ∧ permissionOf { stUserOwned with robotPermissions := upsertPermissionRow stUserOwned.robotPermissions "R1" 2 PermissionType.usage (some 1) } "R1" 2
           = some ⟨"R1", 2, PermissionType.usage, some 1⟩
       ∧ (permKeysNodup stUserOwned → permKeysNodup { stUserOwned with robotPermissions := upsertPermissionRow stUserOwned.robotPermissions "R1" 2 PermissionType.usage (some 1) })) :=
  grant_permission_owner_guard_and_upsert stUserOwned 1 "R1" 2 PermissionType.usage
    ⟨"R1", "Bot", none, some 1, none, none⟩ (by decide) (by decide)

/-- Claim C9, counterexample: user 2 is a plain MEMBER of the owning group,
so resolve(2, R1) is none, yet getRobotSettings succeeds and returns a blob
instead of failing Forbidden — the settings gate tests getAccessibleRobots,
not resolve. -/
theorem plain_member_reads_settings_despite_resolve_none :
    getUserRobotPermission stPlainMember 2 "R1" = none
    ∧ Except.map (fun pr => pr.2) (getRobotSettings stPlainMember 2 "R1")
        = Except.ok emptyJsonb :=
  ⟨rfl, rfl⟩

/-- Claim C9 (amended): in states where every group owner holds a
membership row, a user B with resolve(B, s) non-none can saveSettings and
the following getSettings returns exactly the saved blob (full replace);
and a user C fails Forbidden exactly when the serial is outside
getAccessibleRobots(C) — which exceeds resolve-none by the plain members of
the owning group. -/
theorem settings_roundtrip_and_forbidden (st : DbState) (B C : Nat) (s : String)
    (blob : Jsonb)
    (hinv : ownerMembershipInvB st = true)
    (hB : getUserRobotPermission st B s ≠ none)
    (hC : (getAccessibleRobots st C).any (fun r => r.serialNumber == s) = false) :
    updateRobotSettings st B s blob
        = Except.ok { st with robotSettings := upsertSettingRow st.robotSettings s B blob }
    ∧ getRobotSettings { st with robotSettings := upsertSettingRow st.robotSettings s B blob } B s
        = Except.ok ({ st with robotSettings := upsertSettingRow st.robotSettings s B blob }, blob)
    ∧ getRobotSettings { st with robotSettings := upsertSettingRow st.robotSettings s B blob } C s
        = Except.error permissionDeniedErr := by
  have haccB := accessible_of_resolve st B s hinv hB
  refine ⟨?_, ?_, ?_⟩
  · unfold updateRobotSettings
    rw [haccB]
    rfl
  · unfold getRobotSettings
    have e1 : getAccessibleRobots
        { st with robotSettings := upsertSettingRow st.robotSettings s B blob } B
        = getAccessibleRobots st B := rfl
    rw [e1, haccB]
    have e2 : settingOf
        { st with robotSettings := upsertSettingRow st.robotSettings s B blob } s B
        = some ⟨s, B, blob⟩ := settingOf_upsert st.robotSettings s B blob
    rw [e2]
    rfl
  · unfold getRobotSettings
    have e1 : getAccessibleRobots
        { st with robotSettings := upsertSettingRow st.robotSettings s B blob } C
        = getAccessibleRobots st C := rfl
    rw [e1, hC]
    rfl

/-- Claim C9, witness of the amended theorem at a concrete state. -/
theorem settings_roundtrip_and_forbidden_witness :
    updateRobotSettings stUserOwned 1 "R1" "dark"
        = Except.ok { stUserOwned with robotSettings := upsertSettingRow stUserOwned.robotSettings "R1" 1 "dark" }
    ∧ getRobotSettings { stUserOwned with robotSettings := upsertSettingRow stUserOwned.robotSettings "R1" 1 "dark" } 1 "R1"
        = Except.ok ({ stUserOwned with robotSettings := upsertSettingRow stUserOwned.robotSettings "R1" 1 "dark" }, "dark")
    ∧ getRobotSettings { stUserOwned with robotSettings := upsertSettingRow stUserOwned.robotSettings "R1" 1 "dark" } 2 "R1"
        = Except.error permissionDeniedErr :=
  settings_roundtrip_and_forbidden stUserOwned 1 2 "R1" "dark"
    (by decide) (by decide) (by decide)

/-- Claim C10: an explicit ADMIN permission row for an existing robot makes
the hasAdminPermission gate answer true, for every state whose permission
table respects the unique (serial, user) key — including states where
getUserRobotPermission answers USAGE because the user is the assigned user,
as witnessed separately. -/
theorem explicit_admin_row_passes_admin_gate (st : DbState) (u : Nat) (r : Robot)
    (p : RobotPermission) (hr : r ∈ st.robots) (hnd : permKeysNodup st)
    (hp : p ∈ st.robotPermissions) (hps : p.robotSerialNumber = r.serialNumber)
    (hpu : p.userId = u) (hpt : p.permissionType = PermissionType.admin) :
    hasAdminPermission st u r.serialNumber r.ownerUserId r.ownerGroupId = true := by
  have hfind : permissionOf st r.serialNumber u = some p := by
    rw [← hps, ← hpu]
    exact permissionOf_of_mem st p hp hnd
  unfold hasAdminPermission
  by_cases h1 : r.ownerUserId = some u
  · rw [if_pos h1]
  · rw [if_neg h1]
    by_cases h2 : groupAdminCheck st r.ownerGroupId u = true
    · rw [if_pos h2]
    · rw [if_neg h2]
      rw [hfind]
      show (p.permissionType == PermissionType.admin) = true
      rw [hpt]
      rfl

/-- Claim C10, witness: at the state where user 2 is both assigned and the
holder of an explicit ADMIN row on R1, the gate answers true. -/
theorem explicit_admin_row_passes_admin_gate_witness :
    hasAdminPermission stAssignedGrantee 2
        (⟨"R1", "Bot", none, none, some 1, some 2⟩ : Robot).serialNumber
        (⟨"R1", "Bot", none, none, some 1, some 2⟩ : Robot).ownerUserId
        (⟨"R1", "Bot", none, none, some 1, some 2⟩ : Robot).ownerGroupId = true :=
  explicit_admin_row_passes_admin_gate stAssignedGrantee 2
    ⟨"R1", "Bot", none, none, some 1, some 2⟩ ⟨"R1", 2, PermissionType.admin, some 1⟩
    (by decide) (by unfold permKeysNodup; decide) (by decide) (by decide) (by decide)
    (by decide)

end RobotApp
